import Mathlib

/-!
Verification of the breakfast-ordering backend's session core
(`src/server.js`, MongoDB variant, with the schema of
`src/models/Session.js`).

Shallow embedding conventions:
* JS numbers are modelled as `ℚ` (the code never relies on float
  rounding for the claims at hand; the spec itself asks only for
  equality within floating-point tolerance, which is exact in `ℚ`).
* Timestamps (`Date`) are modelled as `ℚ` (milliseconds since epoch);
  `new Date() > new Date(d)` becomes `d < now`.
* Fallible route handlers become `Except ApiError _`.
* The mongoose subdocument default `payment: { default: () => ({}) }`
  means an order written without a `payment` field gets the schema
  default `{status: pending, method: transfer, paidBy: null,
  confirmedByHost: false, paidAt: null}`.
-/

deriving instance DecidableEq for Except

namespace Breakfast

/-- PaymentState subdocument (`paymentSchema` in `src/models/Session.js`).
Statuses and methods are carried as raw strings, as the handlers pass
client strings through; the mongoose enum validation is modelled in
`validPayment`. -/
structure Payment where
  status : String
  method : String
  paidBy : Option String
  confirmedByHost : Bool
  paidAt : Option ℚ
deriving Repr, DecidableEq

/-- Schema default for `payment` (all fields defaulted). -/
def Payment.schemaDefault : Payment :=
  { status := "pending", method := "transfer", paidBy := none,
    confirmedByHost := false, paidAt := none }

/-- The `orderItemSchema`: name (trimmed), price, quantity, unavailable flag
(schema default `false`). -/
structure OrderItem where
  name : String
  price : ℚ
  quantity : ℚ
  unavailable : Bool
deriving Repr, DecidableEq

/-- The `orderSchema`: one participant's order inside a session. -/
structure Order where
  user : Option String
  participantName : String
  items : List OrderItem
  payment : Payment
  paymentSent : Bool
  submittedAt : ℚ
deriving Repr, DecidableEq

/-- The `sessionSchema` (fields the session core reads or writes). -/
structure Session where
  sessionId : String
  host : String
  hostName : String
  deliveryFee : ℚ
  deadline : Option ℚ
  status : String
  orders : List Order
deriving Repr, DecidableEq

/-- An item as it arrives in a request body: a name, numeric price and
quantity, and an optional `unavailable` flag (used only by edit). -/
structure InputItem where
  name : String
  price : ℚ
  quantity : ℚ
  unavailable : Bool
deriving Repr, DecidableEq

/-- Error outcomes of the route handlers: 404, 400, 403, and 500
(the last models a mongoose validation failure on `save()`). -/
inductive ApiError where
  | notFound (msg : String)
  | badRequest (msg : String)
  | forbidden (msg : String)
  | internal (msg : String)
deriving Repr, DecidableEq

/-- JS `String.prototype.trim`: strip leading and trailing whitespace.
Defined over the character list so that it reduces in the kernel
(`String.trim` itself gets stuck there). -/
def trimStr (s : String) : String :=
  String.mk (((s.data.dropWhile Char.isWhitespace).reverse.dropWhile Char.isWhitespace).reverse)

/-- Models `session.deadline && new Date() > new Date(session.deadline)`. -/
def deadlinePassed (deadline : Option ℚ) (now : ℚ) : Bool :=
  match deadline with
  | none => false
  | some d => decide (d < now)

-- ======================== cost allocator ========================

/-- One row of `calculateCosts`' result. -/
structure CostEntry where
  name : String
  itemsTotal : ℚ
  deliveryShare : ℚ
  total : ℚ
  items : List OrderItem
  payment : Payment
  paymentSent : Bool
deriving Repr, DecidableEq

/-- Models `order.items.reduce((sum, item) => sum + (item.unavailable ? 0 :
item.price * item.quantity), 0)`. -/
def orderItemsTotal (items : List OrderItem) : ℚ :=
  items.foldl (fun sum item => sum + (if item.unavailable then 0 else item.price * item.quantity)) 0

/-- Backward-compat branch of `calculateCosts`: `order.payment?.status ?
order.payment : {status: order.paymentSent ? 'paid' : 'pending', ...}`.
JS truthiness of a string is `≠ ""`. -/
def effectivePayment (o : Order) : Payment :=
  if o.payment.status ≠ "" then o.payment
  else
    { status := if o.paymentSent then "paid" else "pending", method := "transfer",
      paidBy := none, confirmedByHost := false, paidAt := none }

/-- Builds one entry of the cost table for a given per-person share. -/
def costEntry (share : ℚ) (o : Order) : CostEntry :=
  let itemsTotal := orderItemsTotal o.items
  let payment := effectivePayment o
  { name := o.participantName, itemsTotal := itemsTotal, deliveryShare := share,
    total := itemsTotal + share, items := o.items, payment := payment,
    paymentSent := payment.status ≠ "pending" }

/-- The `calculateCosts` helper of `src/server.js` (lines 82–111). -/
def calculateCosts (s : Session) : List CostEntry :=
  let numParticipants := s.orders.length
  if numParticipants = 0 then []
  else
    let deliveryPerPerson := s.deliveryFee / (numParticipants : ℚ)
    s.orders.map (costEntry deliveryPerPerson)

-- ======================== list helpers mirroring the JS mutations ========================

/-- Models `findIndex` + `orders[existingIndex] = order` when a match exists,
`orders.push(order)` otherwise: replace the first element satisfying `p`
in place, or append at the end. -/
def upsertOrder (p : Order → Bool) (x : Order) : List Order → List Order
  | [] => [x]
  | o :: rest => if p o then x :: rest else o :: upsertOrder p x rest

/-- Models `orders.find(p)` followed by in-place mutation of the found order:
apply `f` to the first element satisfying `p`. -/
def updateFirst (p : Order → Bool) (f : Order → Order) : List Order → List Order
  | [] => []
  | o :: rest => if p o then f o :: rest else o :: updateFirst p f rest

/-- Models `findIndex` + `orders.splice(idx, 1)`: remove the first element
satisfying `p`. -/
def removeFirst (p : Order → Bool) : List Order → List Order
  | [] => []
  | o :: rest => if p o then rest else o :: removeFirst p rest

-- ======================== submit order ========================

/-- The per-item validation loop of the POST orders handler: returns the
first error message, scanning items left to right and, per item, name
then price then quantity. Quantity must be a JS integer
(`Number.isInteger`, i.e. denominator 1) of at least 1. -/
def itemError (i : InputItem) : Option String :=
  if trimStr i.name = "" then some "Each item must have a name"
  else if ¬ (0 < i.price) then some "Each item must have a positive price"
  else if ¬ (i.quantity.den = 1 ∧ 1 ≤ i.quantity) then some "Each item must have a quantity of at least 1"
  else none

/-- First validation error over the whole submitted list, if any. -/
def itemsError (items : List InputItem) : Option String :=
  items.findSome? itemError

/-- Models `items.map(i => ({name: i.name.trim(), price: i.price, quantity:
i.quantity}))`: the stored items of a submitted order. The `unavailable`
field is not copied, so the schema default `false` applies. -/
def mkSubmittedItems (items : List InputItem) : List OrderItem :=
  items.map (fun i => { name := trimStr i.name, price := i.price, quantity := i.quantity, unavailable := false })

/-- POST `/api/sessions/:id/orders` (lines 261–329): the submit-order
handler, acting on an already-fetched session. The replacement order is
built afresh with `paymentSent: false` and no `payment` field, so the
stored subdocument is the schema default. -/
def submitOrder (s : Session) (userId userName : String) (items : List InputItem) (now : ℚ) :
    Except ApiError Session :=
  if s.status ≠ "active" then .error (.badRequest "Session is closed")
  else if deadlinePassed s.deadline now then .error (.badRequest "Order deadline has passed")
  else if items.isEmpty then .error (.badRequest "At least one item is required")
  else match itemsError items with
    | some msg => .error (.badRequest msg)
    | none =>
      let order : Order :=
        { user := some userId, participantName := userName,
          items := mkSubmittedItems items,
          payment := Payment.schemaDefault, paymentSent := false, submittedAt := now }
      .ok { s with orders := upsertOrder (fun o => o.participantName == userName) order s.orders }

-- ======================== update payment ========================

/-- Request body of PATCH `/api/sessions/:id/orders/:name/payment`. -/
structure PaymentBody where
  status : Option String
  method : Option String
  paidBy : Option String
  paymentSent : Option Bool
deriving Repr, DecidableEq

/-- Mongoose enum validation for `payment.status` on `save()`. -/
def paymentStatusValues : List String := ["pending", "paid", "cash", "treated"]

/-- Mongoose enum validation for `payment.method` on `save()`. -/
def paymentMethodValues : List String := ["transfer", "cash", "treated"]

/-- A payment subdocument accepted by the schema's enums. -/
def validPayment (p : Payment) : Bool :=
  paymentStatusValues.contains p.status && paymentMethodValues.contains p.method

/-- The new payment object written by the payment handler (lines
347–368). `!status` is JS falsiness: absent or empty string. Both
branches write `confirmedByHost: false`. -/
def paymentOfBody (actingName : String) (body : PaymentBody) (now : ℚ) : Payment × Bool :=
  if body.paymentSent.isSome && (body.status.getD "" == "") then
    -- legacy boolean branch
    let ps := body.paymentSent.getD false
    (⟨if ps then "paid" else "pending", "transfer",
      if ps then some actingName else none, false,
      if ps then some now else none⟩, ps)
  else
    let st := body.status.getD ""
    let pb := body.paidBy.getD ""
    (⟨if st = "" then "paid" else st,
      (if (body.method.getD "") = "" then "transfer" else body.method.getD ""),
      some (if pb = "" then actingName else pb), false, some now⟩,
      body.status ≠ some "pending")

/-- PATCH `/api/sessions/:id/orders/:name/payment` (lines 332–389),
acting on a fetched session; `actingName` is `req.user.name`. A payment
violating the schema enums makes `save()` throw, surfaced as a 500. -/
def updatePayment (s : Session) (actingName targetName : String) (body : PaymentBody) (now : ℚ) :
    Except ApiError Session :=
  if s.orders.any (fun o => o.participantName == targetName) then
    let pw := paymentOfBody actingName body now
    if validPayment pw.1 then
      .ok { s with orders := updateFirst (fun o => o.participantName == targetName)
                    (fun o => { o with payment := pw.1, paymentSent := pw.2 }) s.orders }
    else .error (.internal "Failed to update payment")
  else .error (.notFound "Order not found")

-- ======================== treat ========================

/-- The `names` request field of the treat handler: the literal string
`'all'`, or a list of participant names (a single string is wrapped
into a one-element list by the handler). -/
inductive TreatNames where
  | all
  | list (ns : List String)
deriving Repr, DecidableEq

/-- The payment written for each treated order. -/
def treatedPayment (hostName : String) (now : ℚ) : Payment :=
  { status := "treated", method := "treated", paidBy := some hostName,
    confirmedByHost := true, paidAt := some now }

/-- The in-place overwrite the treat handler applies to a matched
order: `order.payment = {...treated...}; order.paymentSent = true`. -/
def treatOrderUpdate (hostName : String) (now : ℚ) (o : Order) : Order :=
  { o with payment := treatedPayment hostName now, paymentSent := true }

/-- POST `/api/sessions/:id/treat` (lines 392–445): host-only; resolves
`'all'` to every current participant name, overwrites each matching
order's payment unconditionally, and returns the count of matched
orders. -/
def treat (s : Session) (callerId : String) (names : TreatNames) (now : ℚ) :
    Except ApiError (Session × Nat) :=
  if s.host ≠ callerId then .error (.forbidden "Only the host can treat participants")
  else
    let targetNames : List String := match names with
      | .all => s.orders.map (fun o => o.participantName)
      | .list ns => ns
    let newOrders := s.orders.map (fun o =>
      if targetNames.contains o.participantName then treatOrderUpdate s.hostName now o else o)
    let treated := s.orders.countP (fun o => targetNames.contains o.participantName)
    .ok ({ s with orders := newOrders }, treated)

-- ======================== confirm payment ========================

/-- The in-place mutation the confirm handler applies to the found
order: `order.payment.confirmedByHost = true; order.paymentSent = true`. -/
def confirmOrderUpdate (o : Order) : Order :=
  { o with payment := { o.payment with confirmedByHost := true }, paymentSent := true }

/-- PATCH `/api/sessions/:id/orders/:name/confirm` (lines 448–488):
host-only; sets `confirmedByHost = true` and `paymentSent = true` on the
found order. (The `!order.payment` initialization branch is dead under
the schema, whose default always materializes a payment subdocument.) -/
def confirmPayment (s : Session) (callerId targetName : String) : Except ApiError Session :=
  if s.host ≠ callerId then .error (.forbidden "Only the host can confirm payments")
  else if s.orders.any (fun o => o.participantName == targetName) then
    .ok { s with orders := updateFirst (fun o => o.participantName == targetName)
                  confirmOrderUpdate s.orders }
  else .error (.notFound "Order not found")

-- ======================== close session / delivery fee / delete / edit ========================

/-- DELETE `/api/sessions/:id` (lines 491–507), on a found session:
`session.status = 'closed'`. No other field is touched. -/
def closeSession (s : Session) : Session :=
  { s with status := "closed" }

/-- PATCH `/api/sessions/:id/delivery-fee` (lines 510–535), on a found
session. No status check is performed. -/
def changeDeliveryFee (s : Session) (deliveryFee : ℚ) : Except ApiError Session :=
  if deliveryFee < 0 then .error (.badRequest "Delivery fee must be a non-negative number")
  else .ok { s with deliveryFee := deliveryFee }

/-- DELETE `/api/sessions/:id/orders/:name` (lines 538–560), on a found
session. No status check is performed. -/
def deleteOrder (s : Session) (targetName : String) : Except ApiError Session :=
  if s.orders.any (fun o => o.participantName == targetName) then
    .ok { s with orders := removeFirst (fun o => o.participantName == targetName) s.orders }
  else .error (.notFound "Order not found")

/-- JS `parseInt` applied to a number: truncation toward zero. -/
def jsTrunc (q : ℚ) : Int :=
  Int.tdiv q.num (q.den : Int)

/-- The item coercion of the edit-order handler: `name: (i.name ||
'').trim(), price: Number(i.price) || 0, quantity: parseInt(i.quantity)
|| 1, unavailable: !!i.unavailable`. For a numeric price `Number(p) ||
0` is `p` (it only replaces `NaN`, and `0 || 0` is `0`); for the
quantity, a truncation of `0` (falsy) is replaced by `1`. -/
def coerceEditItem (i : InputItem) : OrderItem :=
  { name := trimStr i.name,
    price := i.price,
    quantity := if jsTrunc i.quantity = 0 then 1 else (jsTrunc i.quantity : ℚ),
    unavailable := i.unavailable }

/-- The in-place item rewrite the edit handler applies to the found
order: `order.items = items.map(coerce).filter(i => i.name)`. -/
def editOrderUpdate (items : List InputItem) (o : Order) : Order :=
  { o with items := (items.map coerceEditItem).filter (fun i => i.name ≠ "") }

/-- PUT `/api/sessions/:id/orders/:name` (lines 563–595), on a found
session: no status or deadline check, no item validation beyond the
request field being an array (always true for a `List` input); items
are coerced and those with an empty trimmed name dropped; `payment` is
not touched. -/
def editOrder (s : Session) (targetName : String) (items : List InputItem) :
    Except ApiError Session :=
  if s.orders.any (fun o => o.participantName == targetName) then
    .ok { s with orders := updateFirst (fun o => o.participantName == targetName)
                  (editOrderUpdate items) s.orders }
  else .error (.notFound "Order not found")

-- ======================== concrete fixtures ========================

/-- A payment already marked paid and host-confirmed. -/
def paidPayment : Payment :=
  { status := "paid", method := "transfer", paidBy := some "Alice",
    confirmedByHost := true, paidAt := some 1 }

/-- An existing order by Alice whose payment is paid and confirmed. -/
def aliceOrder : Order :=
  { user := some "u1", participantName := "Alice",
    items := [{ name := "Tea", price := 10, quantity := 1, unavailable := false }],
    payment := paidPayment, paymentSent := true, submittedAt := 0 }

/-- An active session hosted by `h1` holding Alice's order. -/
def demoSession : Session :=
  { sessionId := "s1", host := "h1", hostName := "Host", deliveryFee := 10,
    deadline := none, status := "active", orders := [aliceOrder] }

/-- The same session after closing. -/
def closedSession : Session :=
  { demoSession with status := "closed" }

/-- A valid input item. -/
def teaItem : InputItem :=
  { name := "Tea", price := 10, quantity := 2, unavailable := false }

/-- The demo session with a deadline already in the past at time 5. -/
def demoSessionPastDeadline : Session :=
  { demoSession with deadline := some 4 }

-- ======================== lemmas about the cost allocator ========================

/-- The reduce in `calculateCosts` sums `price * quantity` over exactly
the items whose `unavailable` flag is false. -/
theorem orderItemsTotal_eq_filter_sum (items : List OrderItem) :
    orderItemsTotal items
      = ((items.filter (fun i => i.unavailable == false)).map (fun i => i.price * i.quantity)).sum := by
  suffices h : ∀ (l : List OrderItem) (a : ℚ),
      l.foldl (fun sum i => sum + (if i.unavailable then 0 else i.price * i.quantity)) a
        = a + ((l.filter (fun i => i.unavailable == false)).map (fun i => i.price * i.quantity)).sum by
    simpa using h items 0
  intro l
  induction l with
  | nil => intro a; simp
  | cons i t ih =>
    intro a
    cases hu : i.unavailable <;> simp [hu, ih, add_assoc]

/-- Positional description of the cost table: entry `i` is built from
order `i` with the common per-person share. -/
theorem calculateCosts_getElem? (s : Session) (i : ℕ) :
    (calculateCosts s)[i]?
      = (s.orders[i]?).map (costEntry (s.deliveryFee / (s.orders.length : ℚ))) := by
  by_cases h : s.orders.length = 0
  · have h0 : s.orders = [] := List.length_eq_zero.mp h
    simp [calculateCosts, h0]
  · simp [calculateCosts, h]

-- ======================== C5 / C6 ========================

/-- C5: `calculateCosts` is a pure function of the session: on empty
orders it returns the empty sequence; on `n ≥ 1` orders every entry's
`deliveryShare` equals `deliveryFee / n` (identical for all
participants), every entry's `total` equals its `itemsTotal +
deliveryShare`, the shares sum to `deliveryFee`, and the output
preserves the insertion order of `session.orders`. -/
theorem calculateCosts_shares_spec (s : Session) (h : s.orders ≠ []) :
    (∀ s₀ : Session, s₀.orders = [] → calculateCosts s₀ = [])
    ∧ (∀ e ∈ calculateCosts s,
        e.deliveryShare = s.deliveryFee / (s.orders.length : ℚ)
          ∧ e.total = e.itemsTotal + e.deliveryShare)
    ∧ ((calculateCosts s).map CostEntry.deliveryShare).sum = s.deliveryFee
    ∧ (calculateCosts s).map CostEntry.name = s.orders.map Order.participantName := by
  have hlen : s.orders.length ≠ 0 := fun hl => h (List.length_eq_zero.mp hl)
  have hcast : ((s.orders.length : ℚ)) ≠ 0 := Nat.cast_ne_zero.mpr hlen
  have hcc : calculateCosts s
      = s.orders.map (costEntry (s.deliveryFee / (s.orders.length : ℚ))) := by
    simp [calculateCosts, hlen]
  refine ⟨fun s₀ h₀ => by simp [calculateCosts, h₀], ?_, ?_, ?_⟩
  · intro e he
    rw [hcc] at he
    obtain ⟨o, _, rfl⟩ := List.mem_map.mp he
    exact ⟨rfl, rfl⟩
  · rw [hcc, List.map_map]
    have hmap : (CostEntry.deliveryShare ∘ costEntry (s.deliveryFee / (s.orders.length : ℚ)))
        = fun _ => s.deliveryFee / (s.orders.length : ℚ) := rfl
    rw [hmap, List.map_const', List.sum_replicate, nsmul_eq_mul, mul_comm,
      div_mul_cancel₀ _ hcast]
  · rw [hcc, List.map_map]
    rfl

/-- Witness for the C5 theorem at a concrete session. -/
theorem calculateCosts_shares_spec_witness :
    demoSession.orders ≠ []
    ∧ ((calculateCosts demoSession).map CostEntry.deliveryShare).sum = demoSession.deliveryFee :=
  ⟨by decide, (calculateCosts_shares_spec demoSession (by decide)).2.2.1⟩

/-- C6: every entry's `itemsTotal` is the sum of `price × quantity` over
exactly the items with `unavailable = false`, and replacing participant
`j`'s items (in particular, toggling an item's `unavailable` flag)
leaves every other participant's `itemsTotal` unchanged. -/
theorem itemsTotal_available_and_local (s : Session) (i j : ℕ) (hne : i ≠ j)
    (oj : Order) (newItems : List OrderItem) :
    ((calculateCosts s)[i]?).map CostEntry.itemsTotal
      = (s.orders[i]?).map (fun o =>
          ((o.items.filter (fun it => it.unavailable == false)).map
            (fun it => it.price * it.quantity)).sum)
    ∧ ((calculateCosts { s with orders := s.orders.set j { oj with items := newItems } })[i]?).map
          CostEntry.itemsTotal
      = ((calculateCosts s)[i]?).map CostEntry.itemsTotal := by
  constructor
  · rw [calculateCosts_getElem?, Option.map_map]
    cases s.orders[i]? <;>
      simp [costEntry, Function.comp, orderItemsTotal_eq_filter_sum]
  · rw [calculateCosts_getElem?, calculateCosts_getElem?]
    simp only [List.length_set]
    rw [List.getElem?_set_ne hne.symm]

/-- Witness for the C6 theorem at a concrete session. -/
theorem itemsTotal_available_and_local_witness :
    (0 : ℕ) ≠ 1
    ∧ ((calculateCosts demoSession)[0]?).map CostEntry.itemsTotal
        = (demoSession.orders[0]?).map (fun o =>
            ((o.items.filter (fun it => it.unavailable == false)).map
              (fun it => it.price * it.quantity)).sum) :=
  ⟨by decide, (itemsTotal_available_and_local demoSession 0 1 (by decide) aliceOrder []).1⟩

-- ======================== C1 ========================

/-- Upserting a `p`-matching element into a list with exactly one
`p`-match keeps the match count at one. -/
theorem upsertOrder_countP_one (p : Order → Bool) (x : Order) (hx : p x = true) :
    ∀ l : List Order, l.countP p = 1 → (upsertOrder p x l).countP p = 1 := by
  intro l
  induction l with
  | nil => intro h; simp at h
  | cons a t ih =>
    intro h
    by_cases ha : p a
    · have ht : t.countP p = 0 := by simpa [List.countP_cons, ha] using h
      simp [upsertOrder, ha, List.countP_cons, hx, ht]
    · have ht : t.countP p = 1 := by simpa [List.countP_cons, ha] using h
      simp [upsertOrder, ha, List.countP_cons, ih ht]

/-- After upserting `x` into a list with exactly one `p`-match, the only
`p`-matching element is `x` itself. -/
theorem upsertOrder_match_unique (p : Order → Bool) (x : Order) (hx : p x = true) :
    ∀ l : List Order, l.countP p = 1 → ∀ o ∈ upsertOrder p x l, p o = true → o = x := by
  intro l
  induction l with
  | nil => intro h; simp at h
  | cons a t ih =>
    intro h o ho hpo
    by_cases ha : p a
    · have ht : t.countP p = 0 := by simpa [List.countP_cons, ha] using h
      simp only [upsertOrder, if_pos ha] at ho
      rcases List.mem_cons.mp ho with rfl | hmem
      · rfl
      · exact absurd hpo (by simpa using List.countP_eq_zero.mp ht o hmem)
    · have ht : t.countP p = 1 := by simpa [List.countP_cons, ha] using h
      simp only [upsertOrder, if_neg ha] at ho
      rcases List.mem_cons.mp ho with rfl | hmem
      · exact absurd hpo (by simp [ha])
      · exact ih ht o hmem hpo

/-- C1 as stated is false on the code: Alice's order is paid and
host-confirmed, yet after a successful resubmission under the same name
the stored payment is the schema default pending state. -/
theorem submitOrder_resets_payment_counterexample :
    demoSession.orders.map (fun o => (o.payment.status, o.payment.confirmedByHost))
      = [("paid", true)]
    ∧ (submitOrder demoSession "u1" "Alice" [teaItem] 5).map
        (fun s => s.orders.map (fun o => (o.payment.status, o.payment.confirmedByHost)))
      = .ok [("pending", false)] := by decide

/-- C1 amended: a successful resubmission for a name already present
(exactly one order under that name) leaves exactly one order for that
name, carrying the newly submitted items and the new submission time —
but its payment state is reset to the schema default (status `pending`,
`confirmedByHost = false`, `paymentSent = false`), not preserved. -/
theorem submitOrder_upsert_resets_payment (s : Session) (uid uname : String)
    (items : List InputItem) (now : ℚ) (s' : Session)
    (hcount : s.orders.countP (fun o => o.participantName == uname) = 1)
    (hok : submitOrder s uid uname items now = .ok s') :
    s'.orders.countP (fun o => o.participantName == uname) = 1
    ∧ ∀ o ∈ s'.orders, o.participantName = uname →
        o.items = mkSubmittedItems items ∧ o.submittedAt = now
          ∧ o.payment = Payment.schemaDefault ∧ o.paymentSent = false := by
  unfold submitOrder at hok
  split at hok
  · exact absurd hok (by simp)
  · split at hok
    · exact absurd hok (by simp)
    · split at hok
      · exact absurd hok (by simp)
      · split at hok
        · exact absurd hok (by simp)
        · cases Except.ok.inj hok
          have hx : (fun o : Order => o.participantName == uname)
              { user := some uid, participantName := uname, items := mkSubmittedItems items,
                payment := Payment.schemaDefault, paymentSent := false, submittedAt := now }
              = true := by simp
          refine ⟨upsertOrder_countP_one _ _ hx s.orders hcount, ?_⟩
          intro o ho hname
          have hpo : (fun o : Order => o.participantName == uname) o = true := by
            simp [hname]
          have := upsertOrder_match_unique _ _ hx s.orders hcount o ho hpo
          subst this
          exact ⟨rfl, rfl, rfl, rfl⟩

/-- Alice's order as rewritten by the witness resubmission below. -/
def aliceResubmitted : Order :=
  { user := some "u1", participantName := "Alice",
    items := [{ name := "Tea", price := 10, quantity := 2, unavailable := false }],
    payment := Payment.schemaDefault, paymentSent := false, submittedAt := 5 }

/-- The session produced by the witness resubmission below. -/
def demoSessionAfterResubmit : Session :=
  { demoSession with orders := [aliceResubmitted] }

/-- Witness for the amended C1 theorem at a concrete resubmission. -/
theorem submitOrder_upsert_resets_payment_witness :
    (demoSession.orders.countP (fun o => o.participantName == "Alice") = 1
      ∧ submitOrder demoSession "u1" "Alice" [teaItem] 5 = .ok demoSessionAfterResubmit)
    ∧ demoSessionAfterResubmit.orders.countP (fun o => o.participantName == "Alice") = 1 :=
  ⟨⟨by decide, by decide⟩,
    (submitOrder_upsert_resets_payment demoSession "u1" "Alice" [teaItem] 5
      demoSessionAfterResubmit (by decide) (by decide)).1⟩

-- ======================== shared handler lemmas ========================

/-- Whether a handler outcome is a success response. -/
def opOk {α : Type} : Except ApiError α → Bool
  | .ok _ => true
  | .error _ => false

/-- Updating the first `p`-match with a `p`-preserving function commutes
with `find?`. -/
theorem find?_updateFirst (p : Order → Bool) (f : Order → Order)
    (hf : ∀ o, p o = true → p (f o) = true) :
    ∀ l : List Order, l.any p = true →
      (updateFirst p f l).find? p = (l.find? p).map f := by
  intro l
  induction l with
  | nil => intro h; simp at h
  | cons a t ih =>
    intro h
    by_cases ha : p a = true
    · simp only [updateFirst, if_pos ha]
      rw [List.find?_cons_of_pos _ (hf a ha), List.find?_cons_of_pos _ ha]
      rfl
    · have ht : t.any p = true := by simpa [List.any_cons, ha] using h
      simp only [updateFirst, if_neg ha]
      rw [List.find?_cons_of_neg _ (by simpa using ha),
        List.find?_cons_of_neg _ (by simpa using ha), ih ht]

/-- Both branches of the payment handler write `confirmedByHost: false`. -/
theorem paymentOfBody_confirmed_false (a : String) (b : PaymentBody) (n : ℚ) :
    (paymentOfBody a b n).1.confirmedByHost = false := by
  unfold paymentOfBody
  split <;> rfl

-- ======================== C2 ========================

/-- C2 as stated is false on the code: on a closed session the
delivery-fee change and the host edit both succeed and mutate state
(only the submit handler checks `status`). -/
theorem closed_session_mutation_counterexample :
    closedSession.status = "closed"
    ∧ (changeDeliveryFee closedSession 20).map (fun t => t.deliveryFee) = .ok 20
    ∧ (editOrder closedSession "Alice" []).map (fun t => t.orders.map (fun o => o.items))
        = .ok [[]] := by decide

/-- C2 amended: while `status = closed`, `submitOrder` is rejected with
the session-closed error, but `editOrder`, `deleteOrder`,
`updatePayment` and `changeDeliveryFee` perform no status check and
succeed whenever their own preconditions hold, mutating the closed
session; reads (`calculateCosts`) stay available throughout. -/
theorem closed_session_only_submit_rejected (s : Session) (uid uname tname : String)
    (items : List InputItem) (fee now : ℚ) (b : Bool)
    (h : s.status = "closed") (hfee : 0 ≤ fee)
    (hord : s.orders.any (fun o => o.participantName == tname) = true) :
    submitOrder s uid uname items now = .error (.badRequest "Session is closed")
    ∧ (changeDeliveryFee s fee).map (fun t => (t.deliveryFee, t.status)) = .ok (fee, "closed")
    ∧ (editOrder s tname items).map Session.status = .ok "closed"
    ∧ (deleteOrder s tname).map Session.status = .ok "closed"
    ∧ (updatePayment s uname tname ⟨none, none, none, some b⟩ now).map Session.status
        = .ok "closed" := by
  have hno : ¬ (fee < 0) := not_lt.mpr hfee
  refine ⟨?_, ?_, ?_, ?_, ?_⟩
  · simp [submitOrder, h]
  · simp [changeDeliveryFee, hno, h, Except.map]
  · simp [editOrder, hord, h, Except.map]
  · simp [deleteOrder, hord, h, Except.map]
  · cases b <;> simp [updatePayment, hord, paymentOfBody, validPayment,
      paymentStatusValues, paymentMethodValues, h, Except.map]

/-- Witness for the amended C2 theorem on a concrete closed session. -/
theorem closed_session_only_submit_rejected_witness :
    (closedSession.status = "closed" ∧ (0 : ℚ) ≤ 20
      ∧ closedSession.orders.any (fun o => o.participantName == "Alice") = true)
    ∧ submitOrder closedSession "u1" "Bob" [teaItem] 5
        = .error (.badRequest "Session is closed") :=
  ⟨⟨by decide, by decide, by decide⟩,
    (closed_session_only_submit_rejected closedSession "u1" "Bob" "Alice" [teaItem] 20 5 true
      (by decide) (by decide) (by decide)).1⟩

-- ======================== C3 ========================

/-- C3 as stated is false on the code: Alice's payment is
host-confirmed, yet a later `updatePayment` rebuilds the payment object
with `confirmedByHost = false`. -/
theorem confirmed_reverts_counterexample :
    demoSession.orders.map (fun o => o.payment.confirmedByHost) = [true]
    ∧ (updatePayment demoSession "Bob" "Alice"
          { status := some "paid", method := none, paidBy := none, paymentSent := none } 5).map
        (fun t => t.orders.map (fun o => o.payment.confirmedByHost)) = .ok [false] := by decide

/-- After rewriting the first matching order's payment, the first match
carries the new payment's `confirmedByHost` flag. -/
theorem find?_confirmed_after_payment_write (pay : Payment) (sent : Bool) (target : String)
    (l : List Order) (hany : l.any (fun o => o.participantName == target) = true) :
    ((updateFirst (fun o => o.participantName == target)
        (fun o => { o with payment := pay, paymentSent := sent }) l).find?
          (fun o => o.participantName == target)).map (fun o => o.payment.confirmedByHost)
      = some pay.confirmedByHost := by
  rw [find?_updateFirst (fun o => o.participantName == target)
      (fun o => { o with payment := pay, paymentSent := sent }) (fun o h => h) l hany]
  obtain ⟨o₀, ho₀⟩ := Option.isSome_iff_exists.mp
    (by rw [List.find?_isSome]; exact List.any_eq_true.mp hany)
  rw [ho₀]
  rfl

/-- After the confirm handler's in-place update, the first matching
order is host-confirmed. -/
theorem find?_confirmed_after_confirm (target : String) (l : List Order)
    (hany : l.any (fun o => o.participantName == target) = true) :
    ((updateFirst (fun o => o.participantName == target) confirmOrderUpdate l).find?
          (fun o => o.participantName == target)).map (fun o => o.payment.confirmedByHost)
      = some true := by
  rw [find?_updateFirst (fun o => o.participantName == target)
      confirmOrderUpdate (fun o h => h) l hany]
  obtain ⟨o₀, ho₀⟩ := Option.isSome_iff_exists.mp
    (by rw [List.find?_isSome]; exact List.any_eq_true.mp hany)
  rw [ho₀]
  rfl

/-- C3 amended: `confirmPayment` sets `confirmedByHost = true` on the
target order, but the flag is not monotone: every successful
`updatePayment` (either body shape) rewrites the target order's payment
with `confirmedByHost = false`, so the flag can revert from true to
false. -/
theorem updatePayment_clears_confirmed (s : Session) (acting target caller : String)
    (body : PaymentBody) (now : ℚ) (s₁ s₂ : Session)
    (h₁ : updatePayment s acting target body now = .ok s₁)
    (h₂ : confirmPayment s caller target = .ok s₂) :
    (s₁.orders.find? (fun o => o.participantName == target)).map
        (fun o => o.payment.confirmedByHost) = some false
    ∧ (s₂.orders.find? (fun o => o.participantName == target)).map
        (fun o => o.payment.confirmedByHost) = some true := by
  constructor
  · simp only [updatePayment] at h₁
    split at h₁
    · rename_i hany
      split at h₁
      · cases Except.ok.inj h₁
        have hgoal := find?_confirmed_after_payment_write
          (paymentOfBody acting body now).1 (paymentOfBody acting body now).2 target
          s.orders hany
        rw [paymentOfBody_confirmed_false] at hgoal
        exact hgoal
      · exact absurd h₁ (by simp)
    · exact absurd h₁ (by simp)
  · simp only [confirmPayment] at h₂
    split at h₂
    · exact absurd h₂ (by simp)
    · split at h₂
      · rename_i hany
        cases Except.ok.inj h₂
        exact find?_confirmed_after_confirm target s.orders hany
      · exact absurd h₂ (by simp)

/-- The session produced by the witness payment update below. -/
def demoSessionAfterPaid : Session :=
  { demoSession with orders := [{ aliceOrder with
      payment := { status := "paid", method := "transfer", paidBy := some "Bob",
                   confirmedByHost := false, paidAt := some 5 },
      paymentSent := true }] }

/-- The session produced by the witness confirmation below. -/
def demoSessionAfterConfirm : Session :=
  { demoSession with orders := [{ aliceOrder with
      payment := { paidPayment with confirmedByHost := true }, paymentSent := true }] }

/-- Witness for the amended C3 theorem at concrete calls. -/
theorem updatePayment_clears_confirmed_witness :
    (updatePayment demoSession "Bob" "Alice"
        { status := some "paid", method := none, paidBy := none, paymentSent := none } 5
        = .ok demoSessionAfterPaid
      ∧ confirmPayment demoSession "h1" "Alice" = .ok demoSessionAfterConfirm)
    ∧ (demoSessionAfterPaid.orders.find? (fun o => o.participantName == "Alice")).map
        (fun o => o.payment.confirmedByHost) = some false :=
  ⟨⟨by decide, by decide⟩,
    (updatePayment_clears_confirmed demoSession "Bob" "Alice" "h1"
      { status := some "paid", method := none, paidBy := none, paymentSent := none } 5
      demoSessionAfterPaid demoSessionAfterConfirm (by decide) (by decide)).1⟩

-- ======================== C4 ========================

/-- C4 as stated is false on the code: the edit handler accepts an empty
items list and an item with a non-positive price, both of which the
submit validation would reject. -/
theorem editOrder_no_validation_counterexample :
    (editOrder demoSession "Alice" []).map (fun t => t.orders.map (fun o => o.items))
      = .ok [[]]
    ∧ (editOrder demoSession "Alice"
          [{ name := "Egg", price := -3, quantity := 1, unavailable := false }]).map
        (fun t => t.orders.map (fun o => o.items.map (fun i => i.price)))
      = .ok [[-3]] := by decide

/-- C4 amended: `editOrder` performs no item validation beyond the
request field being an array: for every existing order it succeeds on
every items list (empty lists and invalid fields included), storing the
coerced items (trimmed name, `parseInt`-truncated quantity defaulting
to 1, boolean-coerced `unavailable`) with empty-named items dropped —
and it never modifies the order's payment state. -/
theorem editOrder_unvalidated_preserves_payment (s : Session) (target : String)
    (items : List InputItem)
    (hord : s.orders.any (fun o => o.participantName == target) = true) :
    (editOrder s target items).map
        (fun t => (t.orders.find? (fun o => o.participantName == target)).map Order.payment)
      = .ok ((s.orders.find? (fun o => o.participantName == target)).map Order.payment)
    ∧ (editOrder s target items).map
        (fun t => (t.orders.find? (fun o => o.participantName == target)).map Order.items)
      = .ok (some ((items.map coerceEditItem).filter (fun i => i.name ≠ ""))) := by
  have hT : editOrder s target items
      = .ok { s with orders := updateFirst (fun o => o.participantName == target)
                                 (editOrderUpdate items) s.orders } := by
    simp [editOrder, hord]
  have hfind := find?_updateFirst (fun o => o.participantName == target)
    (editOrderUpdate items) (fun o h => h) s.orders hord
  obtain ⟨o₀, ho₀⟩ := Option.isSome_iff_exists.mp
    (show (s.orders.find? (fun o => o.participantName == target)).isSome by
      rw [List.find?_isSome]; exact List.any_eq_true.mp hord)
  rw [hT]
  constructor
  · simp only [Except.map]
    rw [hfind, ho₀]
    rfl
  · simp only [Except.map]
    rw [hfind, ho₀]
    rfl

/-- Witness for the amended C4 theorem at a concrete edit. -/
theorem editOrder_unvalidated_preserves_payment_witness :
    (demoSession.orders.any (fun o => o.participantName == "Alice") = true)
    ∧ (editOrder demoSession "Alice" []).map
        (fun t => (t.orders.find? (fun o => o.participantName == "Alice")).map Order.payment)
      = .ok ((demoSession.orders.find? (fun o => o.participantName == "Alice")).map Order.payment) :=
  ⟨by decide, (editOrder_unvalidated_preserves_payment demoSession "Alice" [] (by decide)).1⟩

-- ======================== C7 ========================

/-- C7: on an active session whose deadline is set and has passed,
`submitOrder` fails with the deadline error (the ledger is untouched —
no session state is produced), while `editOrder` on an existing order
still succeeds, performing no deadline check. -/
theorem deadline_blocks_submit_not_edit (s : Session) (uid uname tname : String)
    (items : List InputItem) (d now : ℚ)
    (hact : s.status = "active") (hdl : s.deadline = some d) (hpast : d < now)
    (hord : s.orders.any (fun o => o.participantName == tname) = true) :
    submitOrder s uid uname items now = .error (.badRequest "Order deadline has passed")
    ∧ opOk (editOrder s tname items) = true := by
  constructor
  · simp [submitOrder, hact, deadlinePassed, hdl, hpast]
  · simp [editOrder, hord, opOk]

/-- Witness for the C7 theorem at a concrete expired deadline. -/
theorem deadline_blocks_submit_not_edit_witness :
    (demoSessionPastDeadline.status = "active"
      ∧ demoSessionPastDeadline.deadline = some 4 ∧ (4 : ℚ) < 5
      ∧ demoSessionPastDeadline.orders.any (fun o => o.participantName == "Alice") = true)
    ∧ submitOrder demoSessionPastDeadline "u1" "Alice" [teaItem] 5
        = .error (.badRequest "Order deadline has passed") :=
  ⟨⟨by decide, by decide, by decide, by decide⟩,
    (deadline_blocks_submit_not_edit demoSessionPastDeadline "u1" "Alice" "Alice" [teaItem] 4 5
      (by decide) (by decide) (by decide) (by decide)).1⟩

-- ======================== C8 / C9 ========================

/-- When every order's name is targeted, the treat map writes the
treated payment on every entry. -/
theorem map_treat_payment (hostName : String) (now : ℚ) (l : List Order) (tn : List String)
    (hall : ∀ o ∈ l, tn.contains o.participantName = true) :
    ((l.map (fun o => if tn.contains o.participantName then treatOrderUpdate hostName now o else o)).map
        Order.payment)
      = List.replicate l.length (treatedPayment hostName now) := by
  have hcong : ∀ o ∈ l,
      (Order.payment ∘ fun o =>
          if tn.contains o.participantName then treatOrderUpdate hostName now o else o) o
        = (fun _ => treatedPayment hostName now) o := by
    intro o ho
    have hm : o.participantName ∈ tn := by simpa using hall o ho
    simp [Function.comp, hm, treatOrderUpdate]
  rw [List.map_map, List.map_congr_left hcong, List.map_const']

/-- The treat map never changes participant names. -/
theorem map_treat_names (hostName : String) (now : ℚ) (l : List Order) (tn : List String) :
    ((l.map (fun o => if tn.contains o.participantName then treatOrderUpdate hostName now o else o)).map
        Order.participantName)
      = l.map Order.participantName := by
  have hcong : ∀ o ∈ l,
      (Order.participantName ∘ fun o =>
          if tn.contains o.participantName then treatOrderUpdate hostName now o else o) o
        = Order.participantName o := by
    intro o _
    by_cases hm : o.participantName ∈ tn <;> simp [Function.comp, hm, treatOrderUpdate]
  rw [List.map_map, List.map_congr_left hcong]

/-- C8: `treat('all')` invoked by the host succeeds, sets every order's
payment to `{status: treated, method: treated, paidBy: hostName,
confirmedByHost: true, paidAt: now}` — unconditionally overwriting any
prior payment state, an already-paid one included — and returns
`treatedCount` equal to the number of orders in the session. -/
theorem treat_all_overwrites_everything (s : Session) (caller : String) (now : ℚ)
    (h : s.host = caller) :
    (treat s caller .all now).map (fun r => r.2) = .ok s.orders.length
    ∧ (treat s caller .all now).map (fun r => r.1.orders.map Order.payment)
        = .ok (List.replicate s.orders.length (treatedPayment s.hostName now))
    ∧ (treat s caller .all now).map (fun r => r.1.orders.map Order.participantName)
        = .ok (s.orders.map Order.participantName) := by
  have hself : ∀ o ∈ s.orders,
      ((s.orders.map (fun o => o.participantName)).contains o.participantName) = true := by
    intro o ho
    exact List.elem_eq_true_of_mem (List.mem_map.mpr ⟨o, ho, rfl⟩)
  refine ⟨?_, ?_, ?_⟩
  · simp only [treat, h, ne_eq, not_true_eq_false, if_false, Except.map]
    exact congrArg Except.ok (List.countP_eq_length.mpr hself)
  · simp only [treat, h, ne_eq, not_true_eq_false, if_false, Except.map]
    exact congrArg Except.ok (map_treat_payment s.hostName now s.orders _ hself)
  · simp only [treat, h, ne_eq, not_true_eq_false, if_false, Except.map]
    exact congrArg Except.ok (map_treat_names s.hostName now s.orders _)

/-- Witness for the C8 theorem on a concrete session. -/
theorem treat_all_overwrites_everything_witness :
    demoSession.host = "h1"
    ∧ (treat demoSession "h1" .all 7).map (fun r => r.2) = .ok demoSession.orders.length :=
  ⟨by decide, (treat_all_overwrites_everything demoSession "h1" 7 (by decide)).1⟩

/-- C9: `treat` with an explicit name list, invoked by the host, always
succeeds — names matching no current order are silently skipped, never
a not-found error — mutating only matched orders (unmatched positions
keep their exact prior order) and returning `treatedCount` equal to the
number of matched orders, possibly zero. -/
theorem treat_list_skips_unmatched (s : Session) (caller : String) (ns : List String)
    (now : ℚ) (i : ℕ) (o : Order)
    (h : s.host = caller)
    (hi : s.orders[i]? = some o)
    (hno : ns.contains o.participantName = false) :
    opOk (treat s caller (.list ns) now) = true
    ∧ (treat s caller (.list ns) now).map (fun r => r.2)
        = .ok (s.orders.countP (fun o => ns.contains o.participantName))
    ∧ (treat s caller (.list ns) now).map (fun r => r.1.orders.length) = .ok s.orders.length
    ∧ (treat s caller (.list ns) now).map (fun r => r.1.orders[i]?) = .ok (some o) := by
  refine ⟨?_, ?_, ?_, ?_⟩
  · simp only [treat, h, ne_eq, not_true_eq_false, if_false, opOk]
  · simp only [treat, h, ne_eq, not_true_eq_false, if_false, Except.map]
  · simp only [treat, h, ne_eq, not_true_eq_false, if_false, Except.map,
      List.length_map]
  · simp only [treat, h, ne_eq, not_true_eq_false, if_false, Except.map]
    rw [List.getElem?_map, hi]
    have hm : ¬ (o.participantName ∈ ns) := by simpa using hno
    simp [hm]

/-- Witness for the C9 theorem: treating a name with no matching order
succeeds with a treated count of zero. -/
theorem treat_list_skips_unmatched_witness :
    (demoSession.host = "h1" ∧ demoSession.orders[0]? = some aliceOrder
      ∧ (["Nobody"] : List String).contains aliceOrder.participantName = false)
    ∧ (treat demoSession "h1" (.list ["Nobody"]) 7).map (fun r => r.2)
        = .ok (demoSession.orders.countP (fun o => (["Nobody"] : List String).contains o.participantName)) :=
  ⟨⟨by decide, by decide, by decide⟩,
    (treat_list_skips_unmatched demoSession "h1" ["Nobody"] 7 0 aliceOrder
      (by decide) (by decide) (by decide)).2.1⟩

-- ======================== C10 ========================

/-- C10: `closeSession` on an existing session sets `status = closed`
while leaving orders and fee untouched, and it is idempotent: closing an
already-closed session succeeds and leaves the session unchanged. -/
theorem closeSession_idempotent (s : Session) :
    (closeSession s).status = "closed"
    ∧ (closeSession s).orders = s.orders
    ∧ (closeSession s).deliveryFee = s.deliveryFee
    ∧ closeSession (closeSession s) = closeSession s
    ∧ (s.status = "closed" → closeSession s = s) := by
  refine ⟨rfl, rfl, rfl, rfl, ?_⟩
  intro h
  cases s
  simp only [closeSession] at h ⊢
  simp_all

/-- Witness for the C10 theorem on a concrete closed session. -/
theorem closeSession_idempotent_witness :
    closedSession.status = "closed" ∧ closeSession closedSession = closedSession :=
  ⟨by decide, (closeSession_idempotent closedSession).2.2.2.2 (by decide)⟩

end Breakfast

section ConcreteChecks
open Breakfast

-- The concrete scenario of the spec: fee 30, two participants ordering
-- Tea 10×2 and Coffee 15×1 → entries (20, 15, 35) and (15, 15, 30).
example : (calculateCosts
    { sessionId := "s", host := "h", hostName := "H", deliveryFee := 30,
      deadline := none, status := "active",
      orders := [
        { user := none, participantName := "A",
          items := [⟨"Tea", 10, 2, false⟩],
          payment := Payment.schemaDefault, paymentSent := false, submittedAt := 0 },
        { user := none, participantName := "B",
          items := [⟨"Coffee", 15, 1, false⟩],
          payment := Payment.schemaDefault, paymentSent := false, submittedAt := 0 }] }).map
      (fun c => (c.name, c.itemsTotal, c.deliveryShare, c.total))
    = [("A", 20, 15, 35), ("B", 15, 15, 30)] := by
  norm_num [calculateCosts, costEntry, orderItemsTotal, effectivePayment]

example : trimStr "  Tea " = "Tea" := by decide

-- The edit handler's item coercion on an out-of-spec item: the name is
-- trimmed, a negative price is kept, and a fractional quantity (5/2) is
-- truncated by parseInt.
example : (editOrder demoSession "Alice"
      [{ name := " Egg ", price := -3, quantity := (⟨5, 2, by decide, by decide⟩ : ℚ), unavailable := true }]).map
    (fun s => s.orders.map (fun o => o.items))
    = .ok [[{ name := "Egg", price := -3, quantity := 2, unavailable := true }]] := by decide

end ConcreteChecks
